import Mathlib

/-!
Verification development for the asynchronous synchronization engine of the
lazyactions terminal dashboard (Go).  The Go source is shallowly embedded:
pure functions become Lean functions, the single-threaded update function
becomes a state transformer on an explicit state record, Go `int`/`int64`
values become `Int` (no arithmetic that could overflow occurs in the embedded
code; identifiers are only compared for equality), `time.Duration` becomes
`Int` nanoseconds, fallible results become `Option`/`Except`, and a Go `nil`
slice argument becomes `Option (List _)` where the code distinguishes it.
-/

namespace LazyActions

/-- Go `time.Duration` is an `int64` count of nanoseconds. -/
abbrev Duration := Int

/-! ## Adaptive poller (internal/app/adaptive_poller.go)

The Go struct also carries a `getRateLimit : func() int` accessor closure;
`NextInterval` reads it exactly once, so the embedding passes the value the
accessor would return as the `remaining` argument. -/

structure AdaptivePoller where
  baseInterval : Duration
  maxInterval : Duration

/-- NewAdaptivePoller: base interval 2s, max interval 30s (in nanoseconds). -/
def newAdaptivePoller : AdaptivePoller :=
  { baseInterval := 2000000000, maxInterval := 30000000000 }

/-- NextInterval.  The Go light-caution branch computes
`time.Duration(float64(p.baseInterval) * 1.5)`; for the only constructed
base interval (2e9 ns) and indeed for every int64 below 2^52 the float64
product by 1.5 is exact, so it is embedded as the exact value
`3 * baseInterval / 2`. -/
def AdaptivePoller.nextInterval (p : AdaptivePoller) (remaining : Int) : Duration :=
  if remaining < 100 then p.maxInterval
  else if remaining < 500 then p.baseInterval * 2
  else if remaining < 1000 then 3 * p.baseInterval / 2
  else p.baseInterval

/-! ## FilteredList (internal/app/filtered_list.go), value-level model

The Go container also holds a `sync.RWMutex`; every operation acquires it for
its whole body, so each operation is embedded as an atomic state transformer.
`NewFilteredList` panics when the match function is nil; a Lean function
argument cannot be nil, so the constructor takes the function totally. -/

structure FilteredList (α : Type) where
  allItems : List α
  filtered : List α
  filter : String
  selectedIdx : Int
  matchFn : α → String → Bool

namespace FilteredList

variable {α : Type}

/-- clampSelectedIndex: clamp `selectedIdx` into `[0, len(filtered)-1]`,
or to 0 when the filtered list is empty. -/
def clampSelectedIndex (l : FilteredList α) : FilteredList α :=
  if (l.filtered.length : Int) - 1 < 0 then { l with selectedIdx := 0 }
  else if l.selectedIdx > (l.filtered.length : Int) - 1 then
    { l with selectedIdx := (l.filtered.length : Int) - 1 }
  else if l.selectedIdx < 0 then { l with selectedIdx := 0 }
  else l

/-- applyFilter: an empty filter shows all items (the match function is not
consulted); otherwise keep exactly the items the match function accepts, in
order.  Ends by clamping the selection. -/
def applyFilter (l : FilteredList α) : FilteredList α :=
  let l' :=
    if l.filter = "" then { l with filtered := l.allItems }
    else { l with filtered := l.allItems.filter (fun item => l.matchFn item l.filter) }
  l'.clampSelectedIndex

/-- SetItems: a nil slice (`none`) is replaced by an empty one, then the
current filter is re-applied.  The previous `selectedIdx` is kept (only
clamped), not reset. -/
def setItems (l : FilteredList α) (items : Option (List α)) : FilteredList α :=
  (match items with
    | none => { l with allItems := [] }
    | some its => { l with allItems := its }).applyFilter

/-- SetFilter: replace the filter text and re-derive the filtered view. -/
def setFilter (l : FilteredList α) (text : String) : FilteredList α :=
  ({ l with filter := text }).applyFilter

/-- SelectNext: move down by one, saturating at the last item; no-op when
the filtered list is empty. -/
def selectNext (l : FilteredList α) : FilteredList α :=
  if l.filtered.isEmpty then l
  else if l.selectedIdx < (l.filtered.length : Int) - 1 then
    { l with selectedIdx := l.selectedIdx + 1 }
  else l

/-- SelectPrev: move up by one, saturating at the first item; no-op when
the filtered list is empty. -/
def selectPrev (l : FilteredList α) : FilteredList α :=
  if l.filtered.isEmpty then l
  else if 0 < l.selectedIdx then { l with selectedIdx := l.selectedIdx - 1 }
  else l

/-- Selected: the Go method returns `(zero, false)` on an empty filtered list
and `(filtered[selectedIdx], true)` otherwise, which would panic were the
index out of bounds; the embedding returns `none` for the `false` flag and
models the indexing by `List.get?`, so an out-of-bounds access would show up
as `none` on a non-empty list. -/
def selected (l : FilteredList α) : Option α :=
  if l.filtered.isEmpty then none else l.filtered.get? l.selectedIdx.toNat

/-- Items: the Go method returns the internal `filtered` slice (a fresh empty
slice when it is nil, which cannot occur after the constructor).  At the level
of values this is the filtered list; the store-level model below captures the
aliasing. -/
def items (l : FilteredList α) : List α :=
  l.filtered

/-- SelectedIndex accessor. -/
def selectedIndex (l : FilteredList α) : Int :=
  l.selectedIdx

/-- Len: number of filtered items. -/
def len (l : FilteredList α) : Nat :=
  l.filtered.length

/-- Reset: clear the filter and move the selection to the first item. -/
def reset (l : FilteredList α) : FilteredList α :=
  ({ l with filter := "", selectedIdx := 0 }).applyFilter

end FilteredList

/-- NewFilteredList: empty items, empty filter, selection at 0. -/
def newFilteredList {α : Type} (matchFn : α → String → Bool) : FilteredList α :=
  { allItems := [], filtered := [], filter := "", selectedIdx := 0, matchFn := matchFn }

/-! ## Operation sequences on a FilteredList, for the selection invariant -/

/-- One public mutating call on a FilteredList (the four the claim ranges
over). -/
inductive FLOp (α : Type) where
  | setItems (items : Option (List α))
  | setFilter (text : String)
  | selectNext
  | selectPrev

/-- Apply one call. -/
def applyFLOp {α : Type} (l : FilteredList α) : FLOp α → FilteredList α
  | FLOp.setItems items => l.setItems items
  | FLOp.setFilter text => l.setFilter text
  | FLOp.selectNext => l.selectNext
  | FLOp.selectPrev => l.selectPrev

/-- Run a sequence of calls, first to last. -/
def runFLOps {α : Type} (l : FilteredList α) (ops : List (FLOp α)) : FilteredList α :=
  ops.foldl applyFLOp l

/-- The selection invariant of the claim: the selected index lies in
`[0, max 0 (Len - 1)]`. -/
def SelInv {α : Type} (l : FilteredList α) : Prop :=
  0 ≤ l.selectedIdx ∧ l.selectedIdx ≤ max 0 ((l.filtered.length : Int) - 1)

theorem clamp_selInv {α : Type} (l : FilteredList α) : SelInv l.clampSelectedIndex := by
  simp only [FilteredList.clampSelectedIndex, SelInv]
  split_ifs with h1 h2 h3 <;> (try dsimp only) <;> omega

theorem applyFilter_selInv {α : Type} (l : FilteredList α) : SelInv l.applyFilter :=
  clamp_selInv _

theorem selectNext_selInv {α : Type} (l : FilteredList α) (h : SelInv l) :
    SelInv l.selectNext := by
  obtain ⟨h0, h1⟩ := h
  simp only [FilteredList.selectNext, SelInv]
  split_ifs with he hlt
  · exact ⟨h0, h1⟩
  · have hlen : 0 < l.filtered.length := by
      cases hfe : l.filtered with
      | nil => rw [hfe] at he; simp [List.isEmpty] at he
      | cons a as => simp
    dsimp only
    omega
  · exact ⟨h0, h1⟩

theorem selectPrev_selInv {α : Type} (l : FilteredList α) (h : SelInv l) :
    SelInv l.selectPrev := by
  obtain ⟨h0, h1⟩ := h
  simp only [FilteredList.selectPrev, SelInv]
  split_ifs with he hlt
  · exact ⟨h0, h1⟩
  · dsimp only
    omega
  · exact ⟨h0, h1⟩

theorem applyFLOp_selInv {α : Type} (l : FilteredList α) (op : FLOp α) (h : SelInv l) :
    SelInv (applyFLOp l op) := by
  cases op with
  | setItems items => exact clamp_selInv _
  | setFilter text => exact clamp_selInv _
  | selectNext => exact selectNext_selInv l h
  | selectPrev => exact selectPrev_selInv l h

theorem runFLOps_selInv {α : Type} (l : FilteredList α) (ops : List (FLOp α)) (h : SelInv l) :
    SelInv (runFLOps l ops) := by
  induction ops generalizing l with
  | nil => exact h
  | cons op rest ih => exact ih _ (applyFLOp_selInv l op h)

theorem selInv_new {α : Type} (matchFn : α → String → Bool) :
    SelInv (newFilteredList matchFn) := by
  constructor <;> simp [newFilteredList]

theorem selected_isSome_of_selInv {α : Type} (l : FilteredList α) (h : SelInv l) :
    l.selected.isSome ↔ l.filtered ≠ [] := by
  obtain ⟨h0, h1⟩ := h
  simp only [FilteredList.selected]
  by_cases he : l.filtered = []
  · simp [he]
  · have hlen : 0 < l.filtered.length := List.length_pos.mpr he
    have hidx : l.selectedIdx.toNat < l.filtered.length := by omega
    have hsome : l.filtered[l.selectedIdx.toNat]?.isSome := by
      rw [List.getElem?_eq_getElem hidx]
      rfl
    have hne : l.filtered.isEmpty = false := by
      cases hfe : l.filtered with
      | nil => exact absurd hfe he
      | cons a as => rfl
    simp [hne, hsome, he]

/-- C3: for every sequence of SetItems / SetFilter / SelectNext / SelectPrev
calls starting from a fresh FilteredList, the selected index lies in
`[0, max 0 (Len - 1)]` (hence is 0 whenever the filtered list is empty), and
Selected() never indexes out of bounds: its found flag is true exactly when
the filtered list is non-empty. -/
theorem C3_selection_invariant (α : Type) (matchFn : α → String → Bool)
    (ops : List (FLOp α)) :
    SelInv (runFLOps (newFilteredList matchFn) ops) ∧
    ((runFLOps (newFilteredList matchFn) ops).filtered = [] →
      (runFLOps (newFilteredList matchFn) ops).selectedIdx = 0) ∧
    ((runFLOps (newFilteredList matchFn) ops).selected.isSome ↔
      (runFLOps (newFilteredList matchFn) ops).filtered ≠ []) := by
  have hinv := runFLOps_selInv (newFilteredList matchFn) ops (selInv_new matchFn)
  refine ⟨hinv, ?_, selected_isSome_of_selInv _ hinv⟩
  intro hemp
  rcases hinv with ⟨h0, h1⟩
  rw [hemp] at h1
  simp at h1
  omega

theorem clamp_filtered {α : Type} (l : FilteredList α) :
    l.clampSelectedIndex.filtered = l.filtered := by
  simp only [FilteredList.clampSelectedIndex]
  split_ifs <;> rfl

theorem clamp_allItems {α : Type} (l : FilteredList α) :
    l.clampSelectedIndex.allItems = l.allItems := by
  simp only [FilteredList.clampSelectedIndex]
  split_ifs <;> rfl

theorem clamp_matchFn {α : Type} (l : FilteredList α) :
    l.clampSelectedIndex.matchFn = l.matchFn := by
  simp only [FilteredList.clampSelectedIndex]
  split_ifs <;> rfl

theorem applyFilter_allItems {α : Type} (l : FilteredList α) :
    l.applyFilter.allItems = l.allItems := by
  simp only [FilteredList.applyFilter]
  split_ifs <;> rw [clamp_allItems]

theorem applyFilter_matchFn {α : Type} (l : FilteredList α) :
    l.applyFilter.matchFn = l.matchFn := by
  simp only [FilteredList.applyFilter]
  split_ifs <;> rw [clamp_matchFn]

theorem applyFilter_filtered {α : Type} (l : FilteredList α) :
    l.applyFilter.filtered =
      if l.filter = "" then l.allItems
      else l.allItems.filter (fun item => l.matchFn item l.filter) := by
  simp only [FilteredList.applyFilter]
  split_ifs with h <;> rw [clamp_filtered]

/-- C4 counterexample: with the always-false match predicate, one item and the
empty filter text, Items() returns the whole item list while the subsequence
of items satisfying the predicate is empty, so the claim fails as stated (the
empty filter text bypasses the predicate in applyFilter). -/
theorem C4_counterexample :
    (((newFilteredList (fun (_ : Nat) (_ : String) => false)).setItems
        (some [0])).setFilter "").items = [0] ∧
    ([0] : List Nat).filter (fun i => (fun (_ : Nat) (_ : String) => false) i "") = [] := by
  constructor <;> rfl

/-- C4 amended: after SetItems(items) followed by SetFilter(text), Items()
equals the subsequence of items satisfying the match predicate at text
whenever the text is non-empty; for the empty filter text the predicate is
bypassed and Items() equals all of the items; a nil items input is treated
as empty. -/
theorem C4_filter_correctness (α : Type) (matchFn : α → String → Bool)
    (items : Option (List α)) (text : String) :
    (((newFilteredList matchFn).setItems items).setFilter text).items =
      if text = "" then items.getD []
      else (items.getD []).filter (fun i => matchFn i text) := by
  cases items <;>
    simp only [newFilteredList, FilteredList.setItems, FilteredList.setFilter,
      FilteredList.items, applyFilter_filtered, applyFilter_allItems,
      applyFilter_matchFn, Option.getD]

/-- C5: the adaptive poller returns the 2s base interval for remaining
capacity at least 1000, 3s (1.5x base) for 500 to 999, 4s (2x base) for 100
to 499, and the fixed 30s maximum below 100, with the stated boundaries. -/
theorem C5_adaptive_thresholds (remaining : Int) :
    (1000 ≤ remaining → newAdaptivePoller.nextInterval remaining = 2000000000) ∧
    (500 ≤ remaining ∧ remaining ≤ 999 →
      newAdaptivePoller.nextInterval remaining = 3000000000) ∧
    (100 ≤ remaining ∧ remaining ≤ 499 →
      newAdaptivePoller.nextInterval remaining = 4000000000) ∧
    (remaining < 100 → newAdaptivePoller.nextInterval remaining = 30000000000) := by
  simp only [AdaptivePoller.nextInterval, newAdaptivePoller]
  refine ⟨fun h => ?_, fun h => ?_, fun h => ?_, fun h => ?_⟩ <;> split_ifs <;>
    first | rfl | omega

/-- C5 witness: the four boundary capacities 1000, 999, 100 and 99 map to
2s, 3s, 4s and 30s respectively. -/
theorem C5_adaptive_thresholds_witness :
    newAdaptivePoller.nextInterval 1000 = 2000000000 ∧
    newAdaptivePoller.nextInterval 999 = 3000000000 ∧
    newAdaptivePoller.nextInterval 100 = 4000000000 ∧
    newAdaptivePoller.nextInterval 99 = 30000000000 :=
  ⟨(C5_adaptive_thresholds 1000).1 (by norm_num),
   (C5_adaptive_thresholds 999).2.1 ⟨by norm_num, by norm_num⟩,
   (C5_adaptive_thresholds 100).2.2.1 ⟨by norm_num, by norm_num⟩,
   (C5_adaptive_thresholds 99).2.2.2 (by norm_num)⟩

/-! ## Error classifier (internal/github/errors.go)

A Go error value is embedded as `GoErr`; the three shapes the classifier can
distinguish are: an error whose errors.As-chain reaches a go-github
`ErrorResponse` (carrying a status code and the X-RateLimit-Remaining header
value, "" when the header is absent), an error whose chain starts at an
`AppError` (whose Unwrap follows its cause), and any other (plain transport or
library) error, which unwraps to nothing. -/

inductive ErrorType where
  | network
  | auth
  | rateLimit
  | notFound
  | server
  | unknown
deriving DecidableEq, Repr

structure GHErrorResponse where
  statusCode : Int
  rateLimitRemainingHeader : String
deriving DecidableEq, Repr

inductive GoErr where
  | ghResp (r : GHErrorResponse)
  | appErr (t : ErrorType) (message : String) (retryable : Bool) (cause : GoErr)
  | plain (message : String)
deriving DecidableEq, Repr

/-- The AppError produced by WrapAPIError.  The Go struct also has a
RetryAfter duration field, which WrapAPIError never assigns (it stays at the
zero value), embedded as an always-none option. -/
structure AppError where
  type : ErrorType
  message : String
  cause : GoErr
  retryable : Bool
  retryAfter : Option Duration
deriving DecidableEq, Repr

/-- errors.As specialised to go-github ErrorResponse: the target is found at
the head of the chain or through AppError causes; ErrorResponse and plain
errors have no Unwrap. -/
def errorsAsGHResp : GoErr → Option GHErrorResponse
  | GoErr.ghResp r => some r
  | GoErr.appErr _ _ _ cause => errorsAsGHResp cause
  | GoErr.plain _ => none

/-- errors.As specialised to AppError: found exactly when the head of the
chain is an AppError (ErrorResponse and plain errors unwrap to nothing). -/
def errorsAsAppErr : GoErr → Option (ErrorType × String × Bool)
  | GoErr.appErr t m r _ => some (t, m, r)
  | GoErr.ghResp _ => none
  | GoErr.plain _ => none

/-- WrapAPIError: nil in, nil out; otherwise classify by the status code of
the ErrorResponse found in the chain, falling through to Unknown/non-retryable
for unhandled status codes and for errors carrying no ErrorResponse. -/
def wrapAPIError : Option GoErr → Option AppError
  | none => none
  | some err =>
    match errorsAsGHResp err with
    | some r =>
      if r.statusCode = 401 then
        some ⟨ErrorType.auth, "Authentication failed", err, false, none⟩
      else if r.statusCode = 403 then
        if r.rateLimitRemainingHeader = "0" then
          some ⟨ErrorType.rateLimit, "Rate limit exceeded", err, true, none⟩
        else some ⟨ErrorType.auth, "Access denied", err, false, none⟩
      else if r.statusCode = 404 then
        some ⟨ErrorType.notFound, "Resource not found", err, false, none⟩
      else if r.statusCode = 429 then
        some ⟨ErrorType.rateLimit, "Too many requests", err, true, none⟩
      else if 500 ≤ r.statusCode then
        some ⟨ErrorType.server, "GitHub server error", err, true, none⟩
      else some ⟨ErrorType.unknown, "Unexpected error", err, false, none⟩
    | none => some ⟨ErrorType.unknown, "Unexpected error", err, false, none⟩

/-- IsRetryable: false on nil; otherwise the retryable flag of the AppError
found by errors.As, false when there is none. -/
def isRetryable : Option GoErr → Bool
  | none => false
  | some e =>
    match errorsAsAppErr e with
    | some (_, _, r) => r
    | none => false

/-- Kind and retryable flag of a classification result. -/
def classKind (a? : Option AppError) : Option (ErrorType × Bool) :=
  a?.map (fun a => (a.type, a.retryable))

/-- C6: the classifier maps 401 to Auth/non-retryable, 403 with the
rate-limit-remaining header "0" to RateLimit/retryable, other 403 to
Auth/non-retryable, 404 to NotFound/non-retryable, 429 to RateLimit/retryable,
5xx to Server/retryable, anything else (other statuses or errors with no API
response in their chain) to Unknown/non-retryable; nil yields nil; and
IsRetryable returns the wrapped classified error flag when present and false
otherwise, including on nil. -/
theorem C6_error_classification :
    wrapAPIError none = none ∧
    (∀ (e : GoErr) (r : GHErrorResponse), errorsAsGHResp e = some r →
      (r.statusCode = 401 →
        classKind (wrapAPIError (some e)) = some (ErrorType.auth, false)) ∧
      (r.statusCode = 403 → r.rateLimitRemainingHeader = "0" →
        classKind (wrapAPIError (some e)) = some (ErrorType.rateLimit, true)) ∧
      (r.statusCode = 403 → r.rateLimitRemainingHeader ≠ "0" →
        classKind (wrapAPIError (some e)) = some (ErrorType.auth, false)) ∧
      (r.statusCode = 404 →
        classKind (wrapAPIError (some e)) = some (ErrorType.notFound, false)) ∧
      (r.statusCode = 429 →
        classKind (wrapAPIError (some e)) = some (ErrorType.rateLimit, true)) ∧
      (500 ≤ r.statusCode →
        classKind (wrapAPIError (some e)) = some (ErrorType.server, true)) ∧
      (r.statusCode ≠ 401 → r.statusCode ≠ 403 → r.statusCode ≠ 404 →
        r.statusCode ≠ 429 → r.statusCode < 500 →
        classKind (wrapAPIError (some e)) = some (ErrorType.unknown, false))) ∧
    (∀ (e : GoErr), errorsAsGHResp e = none →
      classKind (wrapAPIError (some e)) = some (ErrorType.unknown, false)) ∧
    isRetryable none = false ∧
    (∀ (t : ErrorType) (m : String) (b : Bool) (c : GoErr),
      isRetryable (some (GoErr.appErr t m b c)) = b) ∧
    (∀ (e : GoErr), errorsAsAppErr e = none → isRetryable (some e) = false) := by
  refine ⟨rfl, ?_, ?_, rfl, ?_, ?_⟩
  · intro e r hr
    refine ⟨?_, ?_, ?_, ?_, ?_, ?_, ?_⟩ <;>
      simp only [wrapAPIError, hr, classKind] <;> intros <;> split_ifs <;>
      first | rfl | omega
  · intro e he
    simp [wrapAPIError, he, classKind]
  · intro t m b c
    rfl
  · intro e he
    simp [isRetryable, he]

/-- C6 witness: concrete classifications at each handled status, at an
unhandled status, at a plain transport error, and for IsRetryable. -/
theorem C6_error_classification_witness :
    classKind (wrapAPIError (some (GoErr.ghResp ⟨401, ""⟩))) =
      some (ErrorType.auth, false) ∧
    classKind (wrapAPIError (some (GoErr.ghResp ⟨403, "0"⟩))) =
      some (ErrorType.rateLimit, true) ∧
    classKind (wrapAPIError (some (GoErr.ghResp ⟨403, "12"⟩))) =
      some (ErrorType.auth, false) ∧
    classKind (wrapAPIError (some (GoErr.ghResp ⟨404, ""⟩))) =
      some (ErrorType.notFound, false) ∧
    classKind (wrapAPIError (some (GoErr.ghResp ⟨429, ""⟩))) =
      some (ErrorType.rateLimit, true) ∧
    classKind (wrapAPIError (some (GoErr.ghResp ⟨503, ""⟩))) =
      some (ErrorType.server, true) ∧
    classKind (wrapAPIError (some (GoErr.ghResp ⟨418, ""⟩))) =
      some (ErrorType.unknown, false) ∧
    classKind (wrapAPIError (some (GoErr.plain "dial tcp: timeout"))) =
      some (ErrorType.unknown, false) ∧
    isRetryable (some (GoErr.plain "dial tcp: timeout")) = false :=
  ⟨(C6_error_classification.2.1 (GoErr.ghResp ⟨401, ""⟩) ⟨401, ""⟩ rfl).1 rfl,
   (C6_error_classification.2.1 (GoErr.ghResp ⟨403, "0"⟩) ⟨403, "0"⟩ rfl).2.1 rfl rfl,
   (C6_error_classification.2.1 (GoErr.ghResp ⟨403, "12"⟩) ⟨403, "12"⟩ rfl).2.2.1 rfl
     (by decide),
   (C6_error_classification.2.1 (GoErr.ghResp ⟨404, ""⟩) ⟨404, ""⟩ rfl).2.2.2.1 rfl,
   (C6_error_classification.2.1 (GoErr.ghResp ⟨429, ""⟩) ⟨429, ""⟩ rfl).2.2.2.2.1 rfl,
   (C6_error_classification.2.1 (GoErr.ghResp ⟨503, ""⟩) ⟨503, ""⟩ rfl).2.2.2.2.2.1
     (by norm_num),
   (C6_error_classification.2.1 (GoErr.ghResp ⟨418, ""⟩) ⟨418, ""⟩ rfl).2.2.2.2.2.2
     (by norm_num) (by norm_num) (by norm_num) (by norm_num) (by norm_num),
   C6_error_classification.2.2.1 (GoErr.plain "dial tcp: timeout") rfl,
   C6_error_classification.2.2.2.2.2 (GoErr.plain "dial tcp: timeout") rfl⟩

/-- C10: the classifier never produces the Network kind, and every non-nil
error that does not carry an API error response with one of the handled
status codes (401, 403, 404, 429, 5xx) - in particular every plain
transport failure - is classified Unknown with Retryable false. -/
theorem C10_no_network_kind :
    (∀ (e? : Option GoErr) (a : AppError), wrapAPIError e? = some a →
      a.type ≠ ErrorType.network) ∧
    (∀ (e : GoErr),
      (∀ r, errorsAsGHResp e = some r →
        r.statusCode ≠ 401 ∧ r.statusCode ≠ 403 ∧ r.statusCode ≠ 404 ∧
        r.statusCode ≠ 429 ∧ r.statusCode < 500) →
      wrapAPIError (some e) =
        some ⟨ErrorType.unknown, "Unexpected error", e, false, none⟩) := by
  constructor
  · rintro (_ | e) a ha
    · exact absurd ha (by simp [wrapAPIError])
    · revert ha
      simp only [wrapAPIError]
      cases hg : errorsAsGHResp e with
      | none =>
          dsimp only
          intro ha
          cases ha
          simp
      | some r =>
          dsimp only
          split_ifs <;> intro ha <;> cases ha <;> simp
  · intro e hr
    simp only [wrapAPIError]
    cases hg : errorsAsGHResp e with
    | none => rfl
    | some r =>
        obtain ⟨h1, h2, h3, h4, h5⟩ := hr r hg
        dsimp only
        split_ifs <;> first | rfl | omega

/-- C10 witness: a plain transport failure and an unhandled 418 response are
both classified Unknown and non-retryable, and no classification is the
Network kind at these inputs. -/
theorem C10_no_network_kind_witness :
    wrapAPIError (some (GoErr.plain "connection refused")) =
      some ⟨ErrorType.unknown, "Unexpected error",
        GoErr.plain "connection refused", false, none⟩ ∧
    wrapAPIError (some (GoErr.ghResp ⟨418, ""⟩)) =
      some ⟨ErrorType.unknown, "Unexpected error",
        GoErr.ghResp ⟨418, ""⟩, false, none⟩ ∧
    ∀ a, wrapAPIError (some (GoErr.ghResp ⟨503, ""⟩)) = some a →
      a.type ≠ ErrorType.network :=
  ⟨C10_no_network_kind.2 (GoErr.plain "connection refused")
     (fun r hr => by cases hr),
   C10_no_network_kind.2 (GoErr.ghResp ⟨418, ""⟩)
     (fun r hr => by cases hr; refine ⟨by decide, by decide, by decide, by decide, by decide⟩),
   fun a ha => C10_no_network_kind.1 _ a ha⟩


/-! ## Log segmentation parser (internal/app/log_parser.go)

Included insofar as it defines the data shape the reconciler tracks.  The two
classifier regexes reduce to substring tests: a line starts a group when it
contains an occurrence of the literal marker followed by at least one more
character (the capture of the leftmost such occurrence is the step name), and
ends one when it contains the endgroup marker. -/

structure StepLog where
  name : String
  lines : List String
  startLine : Int
  endLine : Int
deriving DecidableEq, Repr

structure ParsedLogs where
  steps : List StepLog
  rawLogs : String
  allLines : List String
deriving DecidableEq, Repr

/-- Leftmost match of the group-start regex over the characters of a line:
find the first position where the marker occurs with a non-empty remainder of
the line after it; the capture is that remainder. -/
def groupStartCaptureAux : List Char → Option (List Char)
  | [] => none
  | c :: cs =>
    if ("##[group]".toList.isPrefixOf (c :: cs)) ∧ 9 < (c :: cs).length then
      some ((c :: cs).drop 9)
    else groupStartCaptureAux cs

/-- FindStringSubmatch of the group-start regex: the captured step name, or
none when the line does not match. -/
def groupStartCapture (line : String) : Option String :=
  (groupStartCaptureAux line.toList).map (fun cs => String.mk cs)

/-- Substring occurrence test. -/
def containsSubAux (pat : List Char) : List Char → Bool
  | [] => pat.isEmpty
  | c :: cs => pat.isPrefixOf (c :: cs) || containsSubAux pat cs

/-- MatchString of the group-end regex: the line contains the endgroup
marker. -/
def lineHasGroupEnd (line : String) : Bool :=
  containsSubAux "##[endgroup]".toList line.toList

/-- The indexed loop of ParseLogs: threads the accumulated steps, the current
open step and the inGroup flag through the lines. -/
def parseLinesAux : List String → Int → List StepLog → Option StepLog → Bool →
    List StepLog × Option StepLog × Bool
  | [], _, steps, cur, inGroup => (steps, cur, inGroup)
  | line :: rest, i, steps, cur, inGroup =>
    match groupStartCapture line with
    | some stepName =>
      let steps' :=
        match cur, inGroup with
        | some st, true => steps ++ [{ st with endLine := i - 1 }]
        | _, _ => steps
      parseLinesAux rest (i + 1) steps'
        (some { name := stepName, lines := [line], startLine := i, endLine := 0 }) true
    | none =>
      if lineHasGroupEnd line then
        match cur, inGroup with
        | some st, true =>
          parseLinesAux rest (i + 1)
            (steps ++ [{ st with lines := st.lines ++ [line], endLine := i }]) none false
        | _, _ => parseLinesAux rest (i + 1) steps cur inGroup
      else
        match cur, inGroup with
        | some st, true =>
          parseLinesAux rest (i + 1) steps (some { st with lines := st.lines ++ [line] }) inGroup
        | _, _ => parseLinesAux rest (i + 1) steps cur inGroup

/-- ParseLogs: split the raw logs on newlines, fold the group markers into
steps, and close a still-open (running) group at the last line. -/
def parseLogs (rawLogs : String) : ParsedLogs :=
  if rawLogs = "" then { steps := [], rawLogs := rawLogs, allLines := [] }
  else
    let lines := rawLogs.splitOn "\n"
    let res := parseLinesAux lines 0 [] none false
    let steps :=
      match res.2.1, res.2.2 with
      | some st, true => res.1 ++ [{ st with endLine := (lines.length : Int) - 1 }]
      | _, _ => res.1
    { steps := steps, rawLogs := rawLogs, allLines := lines }

/-! ## GitHub entity types (internal/github/types.go)

Identifiers are int64; embedded as Int (they are only compared for
equality).  The CreatedAt wall-clock field of Run is omitted: no embedded
code consults it. -/

structure Workflow where
  id : Int
  name : String
  path : String
  state : String
deriving DecidableEq, Repr

structure Run where
  id : Int
  name : String
  status : String
  conclusion : String
  branch : String
  event : String
  actor : String
  url : String
deriving DecidableEq, Repr

structure Step where
  name : String
  status : String
  conclusion : String
  number : Int
deriving DecidableEq, Repr

structure Job where
  id : Int
  name : String
  status : String
  conclusion : String
  steps : List Step
deriving DecidableEq, Repr

/-! ## Completion messages (internal/app/messages.go) and commands

Only the completion messages the reconciler folds into core state are
embedded (key, mouse, window-size, spinner and flash-set messages belong to
the out-of-scope driver).  A Go nil slice in a payload is `none`.
LogsLoadedMsg carries the job id the fetch was issued for; the runs and jobs
completion messages carry no key (observable below in C2). -/

inductive Msg where
  | workflowsLoaded (workflows : Option (List Workflow)) (err : Option GoErr)
  | runsLoaded (runs : Option (List Run)) (err : Option GoErr)
  | jobsLoaded (jobs : Option (List Job)) (err : Option GoErr)
  | logsLoaded (jobID : Int) (logs : String) (err : Option GoErr)
  | runCancelled (runID : Int) (err : Option GoErr)
  | runRerun (runID : Int) (err : Option GoErr)
  | rerunFailedJobs (runID : Int) (err : Option GoErr)
  | workflowTriggered (workflow : String) (err : Option GoErr)
  | flashClear
deriving DecidableEq, Repr

/-- The follow-up fetch commands the embedded update cases can emit (the
client is assumed configured, as in a running app; with a nil client the
fetch command constructors return nil instead). -/
inductive Cmd where
  | fetchWorkflows
  | fetchRuns (workflowID : Int)
  | fetchJobs (runID : Int)
  | fetchLogs (jobID : Int)
deriving DecidableEq, Repr

/-- The JobID carried by a logs completion, none for every other message. -/
def msgLogsJobID : Msg → Option Int
  | Msg.logsLoaded jobID _ _ => some jobID
  | _ => none

/-! ## Command constructors (internal/app/commands.go)

Each Go command captures the client and repo and performs the remote call(s)
on its own goroutine, producing one message.  The remote call is embedded as
an oracle from the invocation index to the result that invocation would
produce, so that which invocations a command consults is part of its
meaning. -/

/-- Loop of the retry helper; `acc` is the closure-captured payload
variable. -/
def retryCaptureAux {sigma : Type} (op : Nat → sigma × Option GoErr) :
    sigma → Nat → Nat → sigma × Option GoErr
  | acc, _, 0 => (acc, none)
  | _, i, Nat.succ n =>
    match op i with
    | (v, none) => (v, none)
    | (v, some e) =>
      if n = 0 then (v, some e)
      else if isRetryable (some e) then retryCaptureAux op v (i + 1) n
      else (v, some e)

/-- Modelled from the spec: RetryWithBackoff is declared in the github
package but its source file is not part of this snapshot.  Per spec section
4.5 it invokes the operation up to `attempts` times, stops immediately when
the latest failure classifies as non-retryable, otherwise waits a bounded
backoff delay (real time is not modelled) and retries, and returns the last
failure once attempts are exhausted.  The Go call sites capture the fetched
payload in a closure variable initialised to its zero value; that captured
variable is threaded explicitly as `init`/`acc`. -/
def retryCapture {sigma : Type} (attempts : Nat) (init : sigma)
    (op : Nat → sigma × Option GoErr) : sigma × Option GoErr :=
  retryCaptureAux op init 0 attempts

/-- fetchWorkflows: three retried attempts; the message carries the captured
payload and final error. -/
def fetchWorkflowsCmd (op : Nat → Option (List Workflow) × Option GoErr) : Msg :=
  let r := retryCapture 3 none op
  Msg.workflowsLoaded r.1 r.2

/-- fetchRuns: the workflow id parameterises the remote call but is not
carried in the produced message. -/
def fetchRunsCmd (workflowID : Int) (op : Nat → Option (List Run) × Option GoErr) : Msg :=
  let r := retryCapture 3 none op
  Msg.runsLoaded r.1 r.2

/-- fetchJobs: the run id parameterises the remote call but is not carried
in the produced message. -/
def fetchJobsCmd (runID : Int) (op : Nat → Option (List Job) × Option GoErr) : Msg :=
  let r := retryCapture 3 none op
  Msg.jobsLoaded r.1 r.2

/-- fetchLogs: retried, sanitised on success (the regex secret-sanitizer is
out of scope and abstracted as `sanitize`), and the produced message carries
back the job id the fetch was issued for. -/
def fetchLogsCmd (sanitize : String → String) (jobID : Int)
    (op : Nat → String × Option GoErr) : Msg :=
  let r := retryCapture 3 "" op
  match r.2 with
  | none => Msg.logsLoaded jobID (sanitize r.1) none
  | some e => Msg.logsLoaded jobID r.1 (some e)

/-- cancelRun: a single direct client call (no retry wrapper), so only
invocation 0 of the oracle is consulted. -/
def cancelRunCmd (runID : Int) (op : Nat → Option GoErr) : Msg :=
  Msg.runCancelled runID (op 0)

/-- rerunWorkflow: a single direct client call (no retry wrapper). -/
def rerunWorkflowCmd (runID : Int) (op : Nat → Option GoErr) : Msg :=
  Msg.runRerun runID (op 0)

/-- rerunFailedJobs: a single direct client call (no retry wrapper). -/
def rerunFailedJobsCmd (runID : Int) (op : Nat → Option GoErr) : Msg :=
  Msg.rerunFailedJobs runID (op 0)

/-- triggerWorkflow: a single direct client call (no retry wrapper). -/
def triggerWorkflowCmd (workflowFile : String) (op : Nat → Option GoErr) : Msg :=
  Msg.workflowTriggered workflowFile (op 0)

/-! ## The application state and the update function (internal/app/app.go)

Only the core state the embedded message cases read or write is carried.
The log viewport is its content string (scroll position is rendering).  The
colouring and wrapping performed by updateLogViewContent
(FormatStepLogsWithColor, wrapLines at the current pane width) are rendering
and abstracted behind a Renderer. -/

structure Renderer where
  fmtColor : ParsedLogs → Int → String
  wrap : String → String

structure AppState where
  workflows : FilteredList Workflow
  runs : FilteredList Run
  jobs : FilteredList Job
  loading : Bool
  err : Option GoErr
  flashMsg : String
  parsedLogs : Option ParsedLogs
  logViewContent : String
  selectedStepIdx : Int

/-- updateLogViewContent: show the selected step of the parsed logs through
the renderer, or a placeholder when there are no parsed logs or the rendered
text is empty. -/
def updateLogViewContent (R : Renderer) (s : AppState) : AppState :=
  match s.parsedLogs with
  | none => { s with logViewContent := "No logs available" }
  | some p =>
    let logs := R.fmtColor p s.selectedStepIdx
    let logs := if logs = "" then "No logs available" else logs
    { s with logViewContent := R.wrap logs }

/-- refreshCurrentWorkflow: a runs fetch for the currently selected
workflow, or nil when none is selected. -/
def refreshCurrentWorkflow (s : AppState) : Option Cmd :=
  match s.workflows.selected with
  | some wf => some (Cmd.fetchRuns wf.id)
  | none => none

/-- The message cases of App.Update, state in and state out plus the batch
of emitted commands (a nil command in the batch is none). -/
def update (R : Renderer) (s : AppState) : Msg → AppState × List (Option Cmd)
  | Msg.workflowsLoaded wfs err =>
    let s := { s with loading := false }
    match err with
    | some e => ({ s with err := some e }, [])
    | none =>
      let s := { s with workflows := s.workflows.setItems wfs }
      if 0 < s.workflows.len then
        match s.workflows.selected with
        | some wf => (s, [some (Cmd.fetchRuns wf.id)])
        | none => (s, [])
      else (s, [])
  | Msg.runsLoaded rs err =>
    let s := { s with loading := false }
    match err with
    | some e => ({ s with err := some e }, [])
    | none =>
      let s := { s with runs := s.runs.setItems rs }
      if 0 < s.runs.len then
        match s.runs.selected with
        | some run => (s, [some (Cmd.fetchJobs run.id)])
        | none => (s, [])
      else (s, [])
  | Msg.jobsLoaded js err =>
    let s := { s with loading := false }
    match err with
    | some e => ({ s with err := some e }, [])
    | none =>
      let s := { s with jobs := s.jobs.setItems js }
      if 0 < s.jobs.len then
        match s.jobs.selected with
        | some job => (s, [some (Cmd.fetchLogs job.id)])
        | none => (s, [])
      else (s, [])
  | Msg.logsLoaded jobID logs err =>
    match s.jobs.selected with
    | some job =>
      if job.id = jobID then
        match err with
        | some e =>
          let s' := { s with err := some e, logViewContent := "Failed to load logs", parsedLogs := none }
          (s', [])
        | none =>
          (updateLogViewContent R { s with parsedLogs := some (parseLogs logs) }, [])
      else (s, [])
    | none => (s, [])
  | Msg.runCancelled _ err =>
    match err with
    | some e => ({ s with err := some e }, [])
    | none => ({ s with flashMsg := "Run cancelled" }, [refreshCurrentWorkflow s])
  | Msg.runRerun _ err =>
    match err with
    | some e => ({ s with err := some e }, [])
    | none => ({ s with flashMsg := "Rerun triggered" }, [refreshCurrentWorkflow s])
  | Msg.rerunFailedJobs _ err =>
    match err with
    | some e => ({ s with err := some e }, [])
    | none =>
      ({ s with flashMsg := "Rerun failed jobs triggered" }, [refreshCurrentWorkflow s])
  | Msg.workflowTriggered wf err =>
    match err with
    | some e => ({ s with err := some e }, [])
    | none =>
      ({ s with flashMsg := "Workflow triggered: " ++ wf }, [refreshCurrentWorkflow s])
  | Msg.flashClear => ({ s with flashMsg := "" }, [])


/-- C3 witness: the invariant holds after a concrete call sequence. -/
theorem C3_selection_invariant_witness :
    SelInv (runFLOps (newFilteredList (fun (_ : Nat) (_ : String) => false))
      [FLOp.setItems (some [5, 7]), FLOp.selectNext, FLOp.setFilter "x",
       FLOp.selectPrev]) ∧
    ((runFLOps (newFilteredList (fun (_ : Nat) (_ : String) => false))
      [FLOp.setItems (some [5, 7]), FLOp.selectNext, FLOp.setFilter "x",
       FLOp.selectPrev]).filtered = [] →
      (runFLOps (newFilteredList (fun (_ : Nat) (_ : String) => false))
        [FLOp.setItems (some [5, 7]), FLOp.selectNext, FLOp.setFilter "x",
         FLOp.selectPrev]).selectedIdx = 0) :=
  ⟨(C3_selection_invariant Nat (fun _ _ => false)
      [FLOp.setItems (some [5, 7]), FLOp.selectNext, FLOp.setFilter "x",
       FLOp.selectPrev]).1,
   (C3_selection_invariant Nat (fun _ _ => false)
      [FLOp.setItems (some [5, 7]), FLOp.selectNext, FLOp.setFilter "x",
       FLOp.selectPrev]).2.1⟩

/-- C4 witness: a concrete non-empty filter keeps exactly the matching
items in order. -/
theorem C4_filter_correctness_witness :
    (((newFilteredList (fun (a : Nat) (_ : String) => a == 3)).setItems
        (some [1, 3, 3, 7])).setFilter "3").items = [3, 3] :=
  (C4_filter_correctness Nat (fun a _ => a == 3) (some [1, 3, 3, 7]) "3").trans
    (by decide)

/-! ## Helper lemmas about selection -/

theorem selected_some_len_pos {α : Type} (l : FilteredList α) (x : α)
    (h : l.selected = some x) : 0 < l.len := by
  by_cases he : l.filtered.isEmpty
  · simp [FilteredList.selected, he] at h
  · simp only [FilteredList.len]
    cases hfe : l.filtered with
    | nil => rw [hfe] at he; simp at he
    | cons a as => simp

theorem clamp_selectedIdx_zero {α : Type} (l : FilteredList α) (h : l.selectedIdx = 0) :
    l.clampSelectedIndex.selectedIdx = 0 := by
  simp only [FilteredList.clampSelectedIndex]
  split_ifs with h1 h2 h3 <;> first | rfl | omega

theorem applyFilter_selected_head {α : Type} (l : FilteredList α) (h : l.selectedIdx = 0) :
    l.applyFilter.selected = l.applyFilter.filtered.head? := by
  have hidx : l.applyFilter.selectedIdx = 0 := by
    simp only [FilteredList.applyFilter]
    split_ifs <;> exact clamp_selectedIdx_zero _ h
  simp only [FilteredList.selected, hidx]
  cases hfe : l.applyFilter.filtered with
  | nil => simp [hfe]
  | cons a as => simp [hfe]

theorem setItems_selected_head {α : Type} (l : FilteredList α) (items : Option (List α))
    (h : l.selectedIdx = 0) :
    (l.setItems items).selected = (l.setItems items).items.head? := by
  cases items <;> exact applyFilter_selected_head _ h

/-! ## C1: staleness rejection for logs -/

/-- C1: with job B currently selected, delivering the completion of a logs
fetch that was issued for a job id different from B (for example job A,
selected at issue time) leaves the whole state unchanged - in particular the
parsed logs and the log view remain those of B - and emits no commands: the
late result is discarded because the job id it carries differs from the
currently selected job's id. -/
theorem C1_stale_logs_discarded (R : Renderer) (sanitize : String → String)
    (s : AppState) (issuedJobID : Int) (op : Nat → String × Option GoErr) (b : Job)
    (hsel : s.jobs.selected = some b) (hne : issuedJobID ≠ b.id) :
    update R s (fetchLogsCmd sanitize issuedJobID op) = (s, []) := by
  have hne' : ¬ (b.id = issuedJobID) := fun hh => hne hh.symm
  unfold fetchLogsCmd
  cases hr : (retryCapture 3 "" op).2 <;> simp only [hr] <;> simp [update, hsel, hne']

def rendA : Renderer := { fmtColor := fun _ _ => "", wrap := fun x => x }

def jobA1001 : Job :=
  { id := 1001, name := "build", status := "completed", conclusion := "success", steps := [] }

def jobB1002 : Job :=
  { id := 1002, name := "test", status := "in_progress", conclusion := "", steps := [] }

/-- The state after the user selected job 1002 (job B) while viewing its
logs. -/
def stateB : AppState :=
  { workflows := newFilteredList (fun (_ : Workflow) (_ : String) => true)
  , runs := newFilteredList (fun (_ : Run) (_ : String) => true)
  , jobs := ((newFilteredList (fun (_ : Job) (_ : String) => true)).setItems
      (some [jobA1001, jobB1002])).selectNext
  , loading := false, err := none, flashMsg := ""
  , parsedLogs := some (parseLogs "logs of job 1002")
  , logViewContent := "logs of job 1002", selectedStepIdx := -1 }

/-- C1 witness: job 1002 is selected; the late completion of the fetch
issued for job 1001 changes nothing. -/
theorem C1_stale_logs_discarded_witness :
    stateB.jobs.selected = some jobB1002 ∧
    update rendA stateB
        (fetchLogsCmd (fun x => x) 1001 (fun _ => ("stale logs of job 1001", none)))
      = (stateB, []) :=
  have h : stateB.jobs.selected = some jobB1002 := by decide
  ⟨h, C1_stale_logs_discarded rendA (fun x => x) stateB 1001
      (fun _ => ("stale logs of job 1001", none)) jobB1002 h (by decide)⟩

/-! ## C2: which completions carry keys and which are gated -/

def matchAnyWf : Workflow → String → Bool := fun _ _ => true

def matchAnyRun : Run → String → Bool := fun _ _ => true

def matchAnyJob : Job → String → Bool := fun _ _ => true

def wf10 : Workflow := { id := 10, name := "CI", path := "ci.yml", state := "active" }

def wf20 : Workflow := { id := 20, name := "Deploy", path := "deploy.yml", state := "active" }

def runOld : Run :=
  { id := 100, name := "old", status := "completed", conclusion := "success"
  , branch := "main", event := "push", actor := "a", url := "" }

def runNew : Run :=
  { id := 200, name := "new", status := "completed", conclusion := "success"
  , branch := "main", event := "push", actor := "a", url := "" }

/-- The state after the user moved the workflow selection to workflow 20
while the runs list still shows workflow 10's run. -/
def stateW : AppState :=
  { workflows := ((newFilteredList matchAnyWf).setItems (some [wf10, wf20])).selectNext
  , runs := (newFilteredList matchAnyRun).setItems (some [runOld])
  , jobs := newFilteredList matchAnyJob
  , loading := false, err := none, flashMsg := ""
  , parsedLogs := none, logViewContent := "", selectedStepIdx := -1 }

/-- C2 counterexample: workflow 20 is currently selected, yet the completion
of a runs fetch issued for workflow 10 carries no key at all and is applied,
replacing the runs list, instead of being discarded.  So the claim that
every fetch kind carries its parent key back and is reconciled only on a key
match is false at this input. -/
theorem C2_counterexample :
    stateW.workflows.selected = some wf20 ∧
    fetchRunsCmd 10 (fun _ => (some [runNew], none)) = Msg.runsLoaded (some [runNew]) none ∧
    (update rendA stateW (fetchRunsCmd 10 (fun _ => (some [runNew], none)))).1.runs.items
      = [runNew] ∧
    stateW.runs.items = [runOld] := by
  refine ⟨by decide, by decide, by decide, by decide⟩

/-- C2 amended: only the logs fetch carries back the key (the job id) it was
issued for, and only the logs completion is key-gated: it is discarded
whenever the currently selected job's id differs from the carried id (or no
job is selected).  The runs and jobs completion messages carry no key, and a
successful runs or jobs completion replaces the corresponding list
unconditionally. -/
theorem C2_key_gating (R : Renderer) (sanitize : String → String) (s : AppState)
    (jid : Int) (op : Nat → String × Option GoErr) (logs : String)
    (err? : Option GoErr) (b : Job) (rs : Option (List Run)) (js : Option (List Job)) :
    msgLogsJobID (fetchLogsCmd sanitize jid op) = some jid ∧
    (s.jobs.selected = some b → b.id ≠ jid →
      update R s (Msg.logsLoaded jid logs err?) = (s, [])) ∧
    (s.jobs.selected = none → update R s (Msg.logsLoaded jid logs err?) = (s, [])) ∧
    (update R s (Msg.runsLoaded rs none)).1.runs = s.runs.setItems rs ∧
    (update R s (Msg.jobsLoaded js none)).1.jobs = s.jobs.setItems js := by
  refine ⟨?_, ?_, ?_, ?_, ?_⟩
  · unfold fetchLogsCmd
    cases hr : (retryCapture 3 "" op).2 <;> simp only [hr] <;> rfl
  · intro hsel hne
    simp [update, hsel, hne]
  · intro hsel
    simp [update, hsel]
  · simp only [update]
    split <;> (try split) <;> rfl
  · simp only [update]
    split <;> (try split) <;> rfl

/-- C2 witness: with job 1002 selected, a logs completion carrying job id
1001 is discarded. -/
theorem C2_key_gating_witness :
    update rendA stateB (Msg.logsLoaded 1001 "stale" none) = (stateB, []) :=
  (C2_key_gating rendA (fun x => x) stateB 1001 (fun _ => ("", none)) "stale" none
    jobB1002 none none).2.1 (by decide) (by decide)

/-! ## C7: side-effecting actions -/

/-- C7: the four side-effecting action commands perform a single direct
client call - only invocation 0 of the oracle is consulted, never a retry -
and their completions are reconciled without any key check: an error
completion only sets the visible error state, leaving the workflows, runs
and jobs lists (and everything else) unchanged and emitting no commands,
while a success completion sets a flash message and schedules
refreshCurrentWorkflow, which is a runs fetch for the currently selected
workflow whenever one is selected. -/
theorem C7_actions (R : Renderer) (s : AppState) (rid : Int) (wfFile : String)
    (e : GoErr) (op : Nat → Option GoErr) :
    cancelRunCmd rid op = Msg.runCancelled rid (op 0) ∧
    rerunWorkflowCmd rid op = Msg.runRerun rid (op 0) ∧
    rerunFailedJobsCmd rid op = Msg.rerunFailedJobs rid (op 0) ∧
    triggerWorkflowCmd wfFile op = Msg.workflowTriggered wfFile (op 0) ∧
    update R s (Msg.runCancelled rid (some e)) = ({ s with err := some e }, []) ∧
    update R s (Msg.runRerun rid (some e)) = ({ s with err := some e }, []) ∧
    update R s (Msg.rerunFailedJobs rid (some e)) = ({ s with err := some e }, []) ∧
    update R s (Msg.workflowTriggered wfFile (some e)) = ({ s with err := some e }, []) ∧
    update R s (Msg.runCancelled rid none)
      = ({ s with flashMsg := "Run cancelled" }, [refreshCurrentWorkflow s]) ∧
    update R s (Msg.runRerun rid none)
      = ({ s with flashMsg := "Rerun triggered" }, [refreshCurrentWorkflow s]) ∧
    update R s (Msg.rerunFailedJobs rid none)
      = ({ s with flashMsg := "Rerun failed jobs triggered" }, [refreshCurrentWorkflow s]) ∧
    update R s (Msg.workflowTriggered wfFile none)
      = ({ s with flashMsg := "Workflow triggered: " ++ wfFile },
          [refreshCurrentWorkflow s]) ∧
    (∀ w, s.workflows.selected = some w →
      refreshCurrentWorkflow s = some (Cmd.fetchRuns w.id)) := by
  refine ⟨rfl, rfl, rfl, rfl, rfl, rfl, rfl, rfl, rfl, rfl, rfl, rfl, ?_⟩
  intro w hw
  simp [refreshCurrentWorkflow, hw]

/-- C7 witness: in a state with workflow 20 selected, a failed cancel only
sets the error, and a successful cancel flashes and schedules a runs fetch
for workflow 20. -/
theorem C7_actions_witness :
    refreshCurrentWorkflow stateW = some (Cmd.fetchRuns 20) ∧
    update rendA stateW (Msg.runCancelled 5 none)
      = ({ stateW with flashMsg := "Run cancelled" }, [refreshCurrentWorkflow stateW]) ∧
    update rendA stateW (Msg.runCancelled 5 (some (GoErr.plain "boom")))
      = ({ stateW with err := some (GoErr.plain "boom") }, []) :=
  have h := C7_actions rendA stateW 5 "ci.yml" (GoErr.plain "boom") (fun _ => none)
  ⟨h.2.2.2.2.2.2.2.2.2.2.2.2 wf20 (by decide),
   h.2.2.2.2.2.2.2.2.1,
   h.2.2.2.2.1⟩

/-! ## C8: cascade fetching -/

def wf30 : Workflow := { id := 30, name := "Lint", path := "lint.yml", state := "active" }

def wf40 : Workflow := { id := 40, name := "Test", path := "test.yml", state := "active" }

/-- C8 counterexample: in a state whose workflow selection index is 1, a
successful workflows completion keeps the selection at index 1 (SetItems only
clamps, it does not reset), so the second workflow - not the first - is
selected and its runs are fetched.  The claim that a successful
workflows-loaded completion selects the first workflow and fetches its runs
is false at this input. -/
theorem C8_counterexample :
    (update rendA stateW (Msg.workflowsLoaded (some [wf30, wf40]) none)).1.workflows.items.head?
      = some wf30 ∧
    (update rendA stateW (Msg.workflowsLoaded (some [wf30, wf40]) none)).1.workflows.selected
      = some wf40 ∧
    wf40 ≠ wf30 ∧
    (update rendA stateW (Msg.workflowsLoaded (some [wf30, wf40]) none)).2
      = [some (Cmd.fetchRuns 40)] ∧
    Cmd.fetchRuns 40 ≠ Cmd.fetchRuns 30 := by
  refine ⟨by decide, by decide, by decide, by decide, by decide⟩

/-- C8 amended: a successful workflows / runs / jobs completion replaces the
corresponding list, keeps the previous selection index (clamped into the new
filtered list), so the selected item need not be the first; whenever the
previous index was 0, as on initial load, the first item of the new filtered
view is selected.  The update issues the cascade fetch (runs of the selected
workflow, jobs of the selected run, logs of the selected job) for the item
selected after the replacement, only when the resulting list is
non-empty. -/
theorem C8_cascade (R : Renderer) (s : AppState) (wfs : Option (List Workflow))
    (rs : Option (List Run)) (js : Option (List Job)) :
    (∀ w, (s.workflows.setItems wfs).selected = some w →
      update R s (Msg.workflowsLoaded wfs none)
        = ({ s with loading := false, workflows := s.workflows.setItems wfs },
            [some (Cmd.fetchRuns w.id)])) ∧
    (s.workflows.selectedIdx = 0 →
      (s.workflows.setItems wfs).selected = (s.workflows.setItems wfs).items.head?) ∧
    ((s.workflows.setItems wfs).items = [] →
      update R s (Msg.workflowsLoaded wfs none)
        = ({ s with loading := false, workflows := s.workflows.setItems wfs }, [])) ∧
    (∀ r, (s.runs.setItems rs).selected = some r →
      update R s (Msg.runsLoaded rs none)
        = ({ s with loading := false, runs := s.runs.setItems rs },
            [some (Cmd.fetchJobs r.id)])) ∧
    (s.runs.selectedIdx = 0 →
      (s.runs.setItems rs).selected = (s.runs.setItems rs).items.head?) ∧
    ((s.runs.setItems rs).items = [] →
      update R s (Msg.runsLoaded rs none)
        = ({ s with loading := false, runs := s.runs.setItems rs }, [])) ∧
    (∀ j, (s.jobs.setItems js).selected = some j →
      update R s (Msg.jobsLoaded js none)
        = ({ s with loading := false, jobs := s.jobs.setItems js },
            [some (Cmd.fetchLogs j.id)])) ∧
    (s.jobs.selectedIdx = 0 →
      (s.jobs.setItems js).selected = (s.jobs.setItems js).items.head?) ∧
    ((s.jobs.setItems js).items = [] →
      update R s (Msg.jobsLoaded js none)
        = ({ s with loading := false, jobs := s.jobs.setItems js }, [])) := by
  refine ⟨?_, fun h => setItems_selected_head _ _ h, ?_,
          ?_, fun h => setItems_selected_head _ _ h, ?_,
          ?_, fun h => setItems_selected_head _ _ h, ?_⟩
  · intro w hw
    have hlen : 0 < (s.workflows.setItems wfs).len := selected_some_len_pos _ _ hw
    simp [update, hw, hlen]
  · intro hemp
    have hlen : (s.workflows.setItems wfs).len = 0 := by
      simp [FilteredList.len, show (s.workflows.setItems wfs).filtered = [] from hemp]
    simp [update, hlen]
  · intro r hr
    have hlen : 0 < (s.runs.setItems rs).len := selected_some_len_pos _ _ hr
    simp [update, hr, hlen]
  · intro hemp
    have hlen : (s.runs.setItems rs).len = 0 := by
      simp [FilteredList.len, show (s.runs.setItems rs).filtered = [] from hemp]
    simp [update, hlen]
  · intro j hj
    have hlen : 0 < (s.jobs.setItems js).len := selected_some_len_pos _ _ hj
    simp [update, hj, hlen]
  · intro hemp
    have hlen : (s.jobs.setItems js).len = 0 := by
      simp [FilteredList.len, show (s.jobs.setItems js).filtered = [] from hemp]
    simp [update, hlen]

/-- A fresh state, as right after Init: every selection index is 0. -/
def stateZ : AppState :=
  { workflows := newFilteredList matchAnyWf
  , runs := newFilteredList matchAnyRun
  , jobs := newFilteredList matchAnyJob
  , loading := true, err := none, flashMsg := ""
  , parsedLogs := none, logViewContent := "", selectedStepIdx := -1 }

/-- C8 witness: on the fresh state, loading workflows [30, 40] selects the
first workflow (id 30) and fetches its runs. -/
theorem C8_cascade_witness :
    update rendA stateZ (Msg.workflowsLoaded (some [wf30, wf40]) none)
      = ({ stateZ with
            loading := false
            workflows := stateZ.workflows.setItems (some [wf30, wf40]) },
          [some (Cmd.fetchRuns 30)]) :=
  (C8_cascade rendA stateZ (some [wf30, wf40]) none none).1 wf30 (by decide)


/-! ## Store-level model of the FilteredList for slice aliasing (C9)

Go slices are references into backing arrays, so whether a read accessor
returns a copy is invisible in the value-level model above.  This second
model of the same filtered_list.go code makes aliasing observable: a slice is
an optional backing-array identifier into an explicit store of arrays, and
every operation threads the store.  Growth by repeated append is modelled as
one allocation holding the final contents (observationally equivalent for
the properties stated here). -/

structure GoSlice where
  arr : Option Nat
deriving DecidableEq, Repr

/-- Array lookup by identifier; out-of-range reads give the empty array. -/
def arrsGet {α : Type} : List (List α) → Nat → List α
  | [], _ => []
  | a :: _, 0 => a
  | _ :: rest, n + 1 => arrsGet rest n

/-- Array replacement by identifier; out-of-range writes are dropped. -/
def arrsSet {α : Type} : List (List α) → Nat → List α → List (List α)
  | [], _, _ => []
  | _ :: rest, 0, v => v :: rest
  | a :: rest, n + 1, v => a :: arrsSet rest n v

structure Store (α : Type) where
  arrays : List (List α)

/-- Allocate a fresh backing array. -/
def Store.alloc {α : Type} (st : Store α) (contents : List α) : Store α × GoSlice :=
  ({ arrays := st.arrays ++ [contents] }, { arr := some st.arrays.length })

/-- The contents a slice refers to; the nil slice reads as empty. -/
def Store.read {α : Type} (st : Store α) (s : GoSlice) : List α :=
  match s.arr with
  | none => []
  | some id => arrsGet st.arrays id

/-- A caller writing v at index i through a slice it holds (s[i] = v). -/
def Store.write {α : Type} (st : Store α) (s : GoSlice) (i : Nat) (v : α) : Store α :=
  match s.arr with
  | none => st
  | some id => { arrays := arrsSet st.arrays id ((arrsGet st.arrays id).set i v) }

/-- The FilteredList fields, with the two slices as store references. -/
structure FilteredListH (α : Type) where
  allItems : GoSlice
  filtered : GoSlice
  filter : String
  selectedIdx : Int
  matchFn : α → String → Bool

/-- clampSelectedIndex at store level (lengths come from the store). -/
def clampH {α : Type} (l : FilteredListH α) (st : Store α) : FilteredListH α :=
  if ((st.read l.filtered).length : Int) - 1 < 0 then { l with selectedIdx := 0 }
  else if l.selectedIdx > ((st.read l.filtered).length : Int) - 1 then
    { l with selectedIdx := ((st.read l.filtered).length : Int) - 1 }
  else if l.selectedIdx < 0 then { l with selectedIdx := 0 }
  else l

/-- applyFilter at store level: with an empty filter the filtered slice
becomes the allItems slice itself (an alias, as in the Go assignment
l.filtered = l.allItems); otherwise a fresh array is allocated with the
matching items. -/
def applyFilterH {α : Type} (l : FilteredListH α) (st : Store α) :
    FilteredListH α × Store α :=
  if l.filter = "" then (clampH { l with filtered := l.allItems } st, st)
  else
    let allocated := st.alloc ((st.read l.allItems).filter (fun x => l.matchFn x l.filter))
    (clampH { l with filtered := allocated.2 } allocated.1, allocated.1)

/-- SetItems at store level: a nil argument is replaced by a fresh empty
array; otherwise allItems becomes the caller's slice itself (an alias). -/
def setItemsH {α : Type} (l : FilteredListH α) (st : Store α) (items : GoSlice) :
    FilteredListH α × Store α :=
  match items.arr with
  | none =>
    let allocated := st.alloc []
    applyFilterH { l with allItems := allocated.2 } allocated.1
  | some _ => applyFilterH { l with allItems := items } st

/-- NewFilteredList at store level: two fresh empty arrays. -/
def newFilteredListH {α : Type} (matchFn : α → String → Bool) (st : Store α) :
    FilteredListH α × Store α :=
  let a1 := st.alloc []
  let a2 := a1.1.alloc []
  ({ allItems := a1.2, filtered := a2.2, filter := "", selectedIdx := 0
   , matchFn := matchFn }, a2.1)

/-- Items at store level: the Go method returns l.filtered itself when it is
non-nil, and a fresh empty slice when it is nil. -/
def itemsH {α : Type} (l : FilteredListH α) (st : Store α) : GoSlice × Store α :=
  match l.filtered.arr with
  | none =>
    let allocated := st.alloc []
    (allocated.2, allocated.1)
  | some _ => (l.filtered, st)

theorem arrsGet_ge {α : Type} (xs : List (List α)) (id : Nat) (h : xs.length ≤ id) :
    arrsGet xs id = [] := by
  induction xs generalizing id with
  | nil => rfl
  | cons a rest ih =>
    cases id with
    | zero => simp at h
    | succ n => exact ih n (by simpa using h)

theorem arrsGet_arrsSet {α : Type} (xs : List (List α)) (id : Nat) (v : List α) :
    arrsGet (arrsSet xs id v) id = if id < xs.length then v else [] := by
  induction xs generalizing id with
  | nil => simp [arrsSet, arrsGet]
  | cons a rest ih =>
    cases id with
    | zero => simp [arrsSet, arrsGet]
    | succ n =>
      simp only [arrsSet, arrsGet, ih n, List.length_cons]
      split_ifs with h1 h2 h3 <;> first | rfl | omega

theorem read_write_set {α : Type} (st : Store α) (sl : GoSlice) (id i : Nat) (v : α)
    (h : sl.arr = some id) :
    (st.write sl i v).read sl = (st.read sl).set i v := by
  simp only [Store.write, Store.read, h]
  rw [arrsGet_arrsSet]
  split_ifs with hid
  · rfl
  · rw [arrsGet_ge st.arrays id (by omega)]
    simp

theorem arrsGet_append_len {α : Type} (xs : List (List α)) (v : List α) :
    arrsGet (xs ++ [v]) xs.length = v := by
  induction xs with
  | nil => rfl
  | cons a rest ih => simpa [arrsGet] using ih

/-- A fresh store, a fresh FilteredList over Int, a caller-allocated array
[1, 2] passed to SetItems, and the Items() call. -/
def c9init : FilteredListH Int × Store Int :=
  newFilteredListH (fun _ _ => true) { arrays := [] }

def c9alloc : Store Int × GoSlice := c9init.2.alloc [1, 2]

def c9set : FilteredListH Int × Store Int := setItemsH c9init.1 c9alloc.1 c9alloc.2

/-- C9 counterexample: build a FilteredList over the array [1, 2] with the
empty filter, call Items(), and let the caller write 99 through the returned
slice at index 0: the container's internal filtered view then reads [99, 2].
The caller holding the returned slice did cause a change to the container's
internal state through it, so the claim that Items() returns a defensive
copy is false at this input. -/
theorem C9_counterexample :
    (itemsH c9set.1 c9set.2).1 = c9set.1.filtered ∧
    c9set.2.read c9set.1.filtered = [1, 2] ∧
    ((itemsH c9set.1 c9set.2).2.write (itemsH c9set.1 c9set.2).1 0 99).read
        c9set.1.filtered = [99, 2] := by
  refine ⟨by decide, by decide, by decide⟩

/-- C9 amended: Items() returns the internal filtered slice itself, not a
copy: when the internal slice is non-nil the returned slice is identical
(same backing array) and the store is untouched, so a caller's write through
the returned slice is visible in the container's filtered view; only when
the internal slice is nil (impossible after the constructor) does Items()
allocate and return a fresh empty slice. -/
theorem C9_items_alias {α : Type} (l : FilteredListH α) (st : Store α) :
    (∀ id, l.filtered.arr = some id → itemsH l st = (l.filtered, st)) ∧
    (∀ id i v, l.filtered.arr = some id →
      ((itemsH l st).2.write (itemsH l st).1 i v).read l.filtered
        = (st.read l.filtered).set i v) ∧
    (l.filtered.arr = none →
      (itemsH l st).1.arr = some st.arrays.length ∧
      (itemsH l st).2.read (itemsH l st).1 = []) := by
  refine ⟨?_, ?_, ?_⟩
  · intro id h
    simp [itemsH, h]
  · intro id i v h
    have hit : itemsH l st = (l.filtered, st) := by simp [itemsH, h]
    rw [hit]
    exact read_write_set st l.filtered id i v h
  · intro h
    simp only [itemsH, h]
    exact ⟨rfl, by simp only [Store.read, Store.alloc]; exact arrsGet_append_len _ _⟩

/-- C9 witness: for the concrete container over [1, 2], Items() returns the
internal slice and the store unchanged, and a caller write of 99 at index 0
through the returned slice changes the container's filtered view to
[99, 2]. -/
theorem C9_items_alias_witness :
    itemsH c9set.1 c9set.2 = (c9set.1.filtered, c9set.2) ∧
    ((itemsH c9set.1 c9set.2).2.write (itemsH c9set.1 c9set.2).1 0 99).read
        c9set.1.filtered = (c9set.2.read c9set.1.filtered).set 0 99 :=
  ⟨(C9_items_alias c9set.1 c9set.2).1 2 (by decide),
   (C9_items_alias c9set.1 c9set.2).2.1 2 0 99 (by decide)⟩


end LazyActions
